import Mathlib

/-!
A shallow embedding of `src/inventory_system.py`: an in-memory inventory
mapping from item names (strings) to quantities, with JSON persistence.

Modelling choices:
* Python/JSON values are an inductive `PyVal`.  Python numbers (`int` and
  `float`) are modelled as exact rationals `ℚ`; Python `bool` is a separate
  constructor, but — as in Python, where `bool` is a subclass of `int` —
  it counts as numeric for `isinstance(qty, (int, float))` checks and for
  arithmetic (`True` behaves as `1`, `False` as `0`).
* The global dict `STOCK_DATA` is modelled as an insertion-ordered
  association list `Inventory := List (String × PyVal)`; a state that models
  an actual Python dict has pairwise distinct keys.  `dictGet`, `dictSet`,
  `dictDel`, `dictMem` mirror `d.get`, `d[k] = v` (update in place keeps the
  position, a fresh key is appended at the end), `del d[k]`, and `k in d`.
* The filesystem is a map from path to optional `FileContent`: `none` models
  a missing file (`FileNotFoundError`), `FileContent.invalid` a file whose
  bytes are not valid JSON (`json.JSONDecodeError`), and `FileContent.json v`
  a file whose bytes parse as the JSON value `v`.  `json.dump`/`json.load`
  are thus modelled at the JSON-value level: serialising and reparsing a
  value is the identity, which matches the `json` standard library on the
  values the repository stores.
* Logging calls (`logger.info` etc.) and the `logs` audit list of `add_item`
  are pure side channels with no effect on the mapping; they are omitted.
* An uncaught Python exception is modelled as `Except.error`; functions in
  the source that cannot raise to the caller return plain values.
-/

namespace InventorySystem

/-- A Python value as produced by `json.load` / held in `STOCK_DATA`.
Numbers are exact rationals. -/
inductive PyVal where
  | num (q : ℚ)
  | bool (b : Bool)
  | str (s : String)
  | null
  | arr (xs : List PyVal)
  | obj (kvs : List (String × PyVal))

/-- Numeric view of a value: Python arithmetic and comparisons treat `bool`
as the integers `0`/`1`; every other non-number value is non-numeric. -/
def PyVal.toNum : PyVal → Option ℚ
  | .num q => some q
  | .bool b => some (if b then 1 else 0)
  | _ => none

/-- `isinstance(v, (int, float))` — in Python, `bool` is a subclass of
`int`, so booleans pass this check. -/
def PyVal.isNumeric : PyVal → Bool
  | .num _ => true
  | .bool _ => true
  | _ => false

/-- `isinstance(v, str)`. -/
def PyVal.isStr : PyVal → Bool
  | .str _ => true
  | _ => false

/-- Python `a - b` restricted to the operand shapes reachable here: defined
exactly when both operands are numeric (no type in `PyVal` other than
numbers and booleans supports `-`); otherwise the operation raises
`TypeError`, modelled as `none`. -/
def pySubQ (a b : PyVal) : Option ℚ :=
  match a.toNum, b.toNum with
  | some x, some y => some (x - y)
  | _, _ => none

/-- Python `a + b` as used in `add_item`, where the right operand has
already passed the numeric `isinstance` check: defined exactly when both
operands are numeric, `TypeError` (modelled as `none`) otherwise. -/
def pyAddQ (a b : PyVal) : Option ℚ :=
  match a.toNum, b.toNum with
  | some x, some y => some (x + y)
  | _, _ => none

/-- The state of the global dict `STOCK_DATA`, as an insertion-ordered
association list.  A state modelling an actual Python dict has pairwise
distinct keys (`(keysOf s).Nodup`). -/
abbrev Inventory : Type := List (String × PyVal)

/-- The key list of a state, in iteration (insertion) order. -/
def keysOf (s : Inventory) : List String :=
  s.map Prod.fst

/-- `d.get(k)` / `d[k]` as a total lookup: the first entry with key `k`. -/
def dictGet (s : Inventory) (k : String) : Option PyVal :=
  match s with
  | [] => none
  | (k', v) :: rest => if k' = k then some v else dictGet rest k

/-- `d[k] = v`: replace the value of an existing key in place (keeping its
position), or append a new entry at the end. -/
def dictSet (s : Inventory) (k : String) (v : PyVal) : Inventory :=
  match s with
  | [] => [(k, v)]
  | (k', v') :: rest => if k' = k then (k, v) :: rest else (k', v') :: dictSet rest k v

/-- `del d[k]`: remove the (first) entry with key `k`. -/
def dictDel (s : Inventory) (k : String) : Inventory :=
  match s with
  | [] => []
  | (k', v) :: rest => if k' = k then rest else (k', v) :: dictDel rest k

/-- `k in d`. -/
def dictMem (s : Inventory) (k : String) : Bool :=
  (dictGet s k).isSome

/-- `add_item(item, qty, logs)` (lines 27–52).  Non-string `item` or
non-numeric `qty` are rejected with a warning and the call returns with the
mapping unchanged.  Otherwise `STOCK_DATA[item] = STOCK_DATA.get(item, 0) + qty`;
if the stored value for `item` is itself non-numeric the `+` raises an
uncaught `TypeError` (`Except.error`).  The `logs` list and log lines are
side channels and are not modelled. -/
def add_item (s : Inventory) (item qty : PyVal) : Except Unit Inventory :=
  match item with
  | .str name =>
    if qty.isNumeric then
      match pyAddQ ((dictGet s name).getD (.num 0)) qty with
      | some q => .ok (dictSet s name (.num q))
      | none => .error ()
    else .ok s
  | _ => .ok s

/-- `remove_item(item, qty)` (lines 55–77).  Absent item: warning, no-op.
Otherwise `STOCK_DATA[item] -= qty` followed by deletion when the new value
is `<= 0`; a `TypeError` raised by the subtraction is caught (the failing
subtraction happens before any assignment, so the mapping is unchanged).
The source accepts any `item`; since every key of `STOCK_DATA` is a string,
`item` is modelled as a string. -/
def remove_item (s : Inventory) (item : String) (qty : PyVal) : Inventory :=
  match dictGet s item with
  | none => s
  | some v =>
    match pySubQ v qty with
    | none => s
    | some q =>
      let s' := dictSet s item (.num q)
      if q ≤ 0 then dictDel s' item else s'

/-- `get_qty(item)` (lines 79–89): `STOCK_DATA.get(item, 0)`. -/
def get_qty (s : Inventory) (item : String) : PyVal :=
  (dictGet s item).getD (.num 0)

/-- What a file holds, as seen through `json.load`. -/
inductive FileContent where
  | json (v : PyVal)
  | invalid

/-- The filesystem: a map from path to content, `none` for a missing file. -/
abbrev FS : Type := String → Option FileContent

/-- `STOCK_DATA.clear()` followed by `STOCK_DATA.update(data)` where `data`
is the dict parsed from a JSON object: the dict is built by inserting the
object's key/value pairs in order (a repeated key overwrites in place). -/
def installObj (kvs : List (String × PyVal)) : Inventory :=
  kvs.foldl (fun d p => dictSet d p.1 p.2) []

/-- `load_data(file_path)` (lines 92–115).  Missing file
(`FileNotFoundError`): warning, mapping unchanged.  Invalid JSON
(`json.JSONDecodeError`): error log, mapping unchanged.  Valid JSON that is
not an object: error log, mapping unchanged.  A JSON object: the mapping is
cleared and replaced by the object's entries, with no validation of keys or
values.  The default path is `"inventory.json"`. -/
def load_data (fs : FS) (s : Inventory) (path : String) : Inventory :=
  match fs path with
  | none => s
  | some .invalid => s
  | some (.json v) =>
    match v with
    | .obj kvs => installObj kvs
    | _ => s

/-- `save_data(file_path)` (lines 117–132): `json.dump(STOCK_DATA, file)`
overwrites the file at `path` with the mapping serialised as a JSON object;
`ok = false` models an `OSError` during open/write, which is caught and
leaves the filesystem (and the mapping, which `save_data` only reads)
unchanged.  The default path is `"inventory.json"`. -/
def save_data (fs : FS) (s : Inventory) (path : String) (ok : Bool) : FS :=
  if ok then fun p => if p = path then some (.json (.obj s)) else fs p
  else fs

/-- `check_low_items(threshold)` (lines 147–157):
`[i for i, q in STOCK_DATA.items() if q < threshold]`.  The comparison
`q < threshold` raises `TypeError` (modelled as `Except.error`) when a
stored value is non-numeric; the comprehension reads the mapping without
modifying it.  The threshold is numeric at every call site (default `5`). -/
def check_low_items (s : Inventory) (threshold : ℚ) : Except Unit (List String) :=
  match s with
  | [] => .ok []
  | (i, v) :: rest =>
    match v.toNum with
    | some q => (check_low_items rest threshold).map (fun l => if q < threshold then i :: l else l)
    | none => .error ()

/-- `check_low_items()` with the source's default threshold of `5`. -/
def check_low_items_default (s : Inventory) : Except Unit (List String) :=
  check_low_items s 5

/-- Whether one entry satisfies the spec's invariant: its quantity is a
number that is strictly positive. -/
def entryPos : String × PyVal → Bool
  | (_, .num q) => decide (0 < q)
  | _ => false

/-- The spec's claimed invariant on the mapping: no entry has a quantity
that is zero or negative (nor a non-numeric quantity). -/
def invariantOK (s : Inventory) : Bool :=
  s.all entryPos

/-- States of the mapping reachable from the empty mapping by any sequence
of the four mapping-writing operations.  `save_data` does not touch the
mapping, so it contributes no constructor; `add_item` contributes a step
only when it returns normally. -/
inductive Reachable : Inventory → Prop where
  | empty : Reachable []
  | add (s s' : Inventory) (item qty : PyVal) :
      Reachable s → add_item s item qty = .ok s' → Reachable s'
  | remove (s : Inventory) (item : String) (qty : PyVal) :
      Reachable s → Reachable (remove_item s item qty)
  | load (s : Inventory) (fs : FS) (path : String) :
      Reachable s → Reachable (load_data fs s path)

/-- The comprehension filter of `check_low_items` on one entry: the stored
value is a number strictly below the threshold. -/
def isLow (t : ℚ) (p : String × PyVal) : Bool :=
  match (Prod.snd p).toNum with
  | some q => decide (q < t)
  | none => false

/-- A sequence of `add_item` calls for the same item, one per quantity in
`qs`, stopping at the first uncaught exception. -/
def addAll (s : Inventory) (item : String) (qs : List ℚ) : Except Unit Inventory :=
  match qs with
  | [] => .ok s
  | q :: rest =>
    match add_item s (.str item) (.num q) with
    | .ok s' => addAll s' item rest
    | .error e => .error e

/-! ### Lemmas about the dictionary operations -/

theorem dictGet_dictSet_self (s : Inventory) (k : String) (v : PyVal) :
    dictGet (dictSet s k v) k = some v := by
  induction s with
  | nil => simp [dictSet, dictGet]
  | cons p rest ih =>
    obtain ⟨k', v'⟩ := p
    by_cases h : k' = k <;> simp [dictSet, dictGet, h, ih]

theorem keysOf_nil : keysOf [] = [] := rfl

theorem keysOf_cons (p : String × PyVal) (s : Inventory) :
    keysOf (p :: s) = p.1 :: keysOf s := rfl

theorem keysOf_append (s t : Inventory) :
    keysOf (s ++ t) = keysOf s ++ keysOf t :=
  List.map_append ..

theorem dictGet_eq_none_iff (s : Inventory) (k : String) :
    dictGet s k = none ↔ k ∉ keysOf s := by
  induction s with
  | nil => simp [dictGet, keysOf_nil]
  | cons p rest ih =>
    obtain ⟨k', v'⟩ := p
    by_cases h : k' = k
    · subst h
      simp [dictGet, keysOf_cons]
    · simp [dictGet, keysOf_cons, h, Ne.symm h, ih]

theorem dictGet_dictDel_self (s : Inventory) (k : String)
    (h : (keysOf s).Nodup) : dictGet (dictDel s k) k = none := by
  induction s with
  | nil => simp [dictDel, dictGet]
  | cons p rest ih =>
    obtain ⟨k', v'⟩ := p
    simp only [keysOf, List.map_cons, List.nodup_cons] at h
    by_cases hk : k' = k
    · subst hk
      simp only [dictDel, if_pos rfl]
      exact (dictGet_eq_none_iff rest k').mpr (by simpa [keysOf] using h.1)
    · simp [dictDel, dictGet, hk, ih h.2]

theorem keysOf_dictSet (s : Inventory) (k : String) (v : PyVal) :
    keysOf (dictSet s k v) =
      if k ∈ keysOf s then keysOf s else keysOf s ++ [k] := by
  induction s with
  | nil => simp [dictSet, keysOf_nil, keysOf_cons]
  | cons p rest ih =>
    obtain ⟨k', v'⟩ := p
    by_cases h : k' = k
    · subst h
      simp [dictSet, keysOf_cons]
    · by_cases hm : k ∈ keysOf rest <;>
        simp [dictSet, keysOf_cons, h, Ne.symm h, hm, ih]

theorem nodup_keysOf_dictSet (s : Inventory) (k : String) (v : PyVal)
    (h : (keysOf s).Nodup) : (keysOf (dictSet s k v)).Nodup := by
  rw [keysOf_dictSet]
  by_cases hm : k ∈ keysOf s
  · simpa [hm] using h
  · simp [hm, List.nodup_append, h]

theorem dictSet_eq_append (s : Inventory) (k : String) (v : PyVal)
    (h : k ∉ keysOf s) : dictSet s k v = s ++ [(k, v)] := by
  induction s with
  | nil => simp [dictSet]
  | cons p rest ih =>
    obtain ⟨k', v'⟩ := p
    simp only [keysOf_cons, List.mem_cons] at h
    push_neg at h
    simp [dictSet, Ne.symm h.1, ih h.2]

theorem foldl_dictSet_eq_append (kvs : List (String × PyVal)) :
    ∀ acc : Inventory, (∀ p ∈ kvs, p.1 ∉ keysOf acc) →
      ((kvs : Inventory).map Prod.fst).Nodup →
      kvs.foldl (fun d p => dictSet d p.1 p.2) acc = acc ++ kvs := by
  induction kvs with
  | nil => intro acc _ _; simp
  | cons p rest ih =>
    intro acc hdisj hnd
    obtain ⟨k, v⟩ := p
    simp only [List.map_cons, List.nodup_cons] at hnd
    have hset : dictSet acc k v = acc ++ [(k, v)] :=
      dictSet_eq_append acc k v (hdisj (k, v) (List.mem_cons_self _ _))
    simp only [List.foldl_cons]
    rw [hset, ih (acc ++ [(k, v)]) ?_ hnd.2]
    · simp
    · intro q hq
      have hq1 : q.1 ∉ keysOf acc := hdisj q (List.mem_cons_of_mem _ hq)
      have hq2 : q.1 ≠ k := by
        intro hEq
        exact hnd.1 (hEq ▸ List.mem_map_of_mem Prod.fst hq)
      simp [keysOf_append, keysOf_cons, keysOf_nil, hq1, hq2]

theorem installObj_eq_self (kvs : List (String × PyVal))
    (h : ((kvs : Inventory).map Prod.fst).Nodup) : installObj kvs = kvs := by
  unfold installObj
  rw [foldl_dictSet_eq_append kvs [] (by simp [keysOf]) h]
  simp

theorem dictGet_of_mem_nodup (kvs : List (String × PyVal)) (k : String)
    (v : PyVal) (hnd : ((kvs : Inventory).map Prod.fst).Nodup)
    (hmem : (k, v) ∈ kvs) : dictGet kvs k = some v := by
  induction kvs with
  | nil => cases hmem
  | cons p rest ih =>
    obtain ⟨k', v'⟩ := p
    simp only [List.map_cons, List.nodup_cons] at hnd
    rcases List.mem_cons.mp hmem with hEq | hmem'
    · cases hEq
      simp [dictGet]
    · by_cases hk : k' = k
      · exfalso
        subst hk
        exact hnd.1 (List.mem_map_of_mem Prod.fst hmem')
      · simp [dictGet, hk, ih hnd.2 hmem']

theorem check_low_items_eq (t : ℚ) (s : Inventory)
    (hnum : ∀ p ∈ s, ((Prod.snd p).toNum).isSome) :
    check_low_items s t = .ok ((s.filter (isLow t)).map Prod.fst) := by
  induction s with
  | nil => simp [check_low_items]
  | cons p rest ih =>
    obtain ⟨i, v⟩ := p
    obtain ⟨q, hq⟩ := Option.isSome_iff_exists.mp (hnum (i, v) (List.mem_cons_self _ _))
    have hrest := ih (fun p hp => hnum p (List.mem_cons_of_mem _ hp))
    by_cases hlt : q < t <;>
      simp [check_low_items, hq, hrest, isLow, hlt, List.filter_cons, Except.map]

theorem add_item_num (s : Inventory) (item : String) (a : ℚ)
    (h : get_qty s item = .num a) (q : ℚ) :
    add_item s (.str item) (.num q) = .ok (dictSet s item (.num (a + q))) := by
  have h' : (dictGet s item).getD (.num 0) = .num a := h
  simp [add_item, PyVal.isNumeric, pyAddQ, h', PyVal.toNum]

theorem remove_item_present (s : Inventory) (item : String) (qty v0 : PyVal)
    (hget : dictGet s item = some v0) :
    remove_item s item qty =
      match pySubQ v0 qty with
      | none => s
      | some q =>
        if q ≤ 0 then dictDel (dictSet s item (.num q)) item
        else dictSet s item (.num q) := by
  unfold remove_item
  rw [hget]

/-- Concrete filesystems used to instantiate theorems with hypotheses. -/
def fsEmpty : FS := fun _ => none

/-- A filesystem whose `inventory.json` parses as a JSON object holding an
empty-string key, a zero value, a negative value, and a non-numeric value. -/
def fsLoadDemo : FS := fun p =>
  if p = "inventory.json" then
    some (.json (.obj [("", PyVal.num 0), ("neg", PyVal.num (-3)), ("s", PyVal.str "x")]))
  else none

/-! ### The claims -/

/-- Claim C1, counterexample: the state `{"x": -1}` is reachable from the
empty mapping by the single call `add_item("x", -1)`, and it violates the
claimed invariant that no entry has a zero or negative quantity —
`add_item` does not remove such entries. -/
theorem c1_counterexample :
    Reachable [("x", PyVal.num (-1))] ∧
      invariantOK [("x", PyVal.num (-1))] = false := by
  constructor
  · refine Reachable.add [] _ (.str "x") (.num (-1)) Reachable.empty ?_
    have h := add_item_num [] "x" 0 rfl (-1)
    simpa [dictSet] using h
  · rfl

/-- Claim C1 (amended): only `remove_item` enforces the positivity
invariant, and only for the item it operates on — after
`remove_item(item, qty)` with a numeric `qty`, on a well-formed state whose
value for `item` (if any) is numeric, the entry for `item` is either gone
or strictly positive.  `add_item` and `load_data` do not remove zero or
negative entries, so the invariant does not hold for all reachable
states. -/
theorem c1_remove_enforces_positive (s : Inventory) (item : String) (q : ℚ)
    (hnd : (keysOf s).Nodup)
    (hprior : ∀ v, dictGet s item = some v → (PyVal.toNum v).isSome = true) :
    ∀ v, dictGet (remove_item s item (.num q)) item = some v →
      entryPos (item, v) = true := by
  intro v hv
  cases hget : dictGet s item with
  | none =>
    have hrm : remove_item s item (.num q) = s := by
      unfold remove_item
      rw [hget]
    rw [hrm, hget] at hv
    simp at hv
  | some v0 =>
    obtain ⟨a, ha⟩ := Option.isSome_iff_exists.mp (hprior v0 hget)
    have hsub : pySubQ v0 (.num q) = some (a - q) := by
      unfold pySubQ
      rw [ha]
      rfl
    have hrm : remove_item s item (.num q) =
        if a - q ≤ 0 then dictDel (dictSet s item (.num (a - q))) item
        else dictSet s item (.num (a - q)) := by
      rw [remove_item_present s item (.num q) v0 hget, hsub]
    by_cases hle : a - q ≤ 0
    · rw [hrm, if_pos hle,
        dictGet_dictDel_self _ item (nodup_keysOf_dictSet s item _ hnd)] at hv
      simp at hv
    · rw [hrm, if_neg hle, dictGet_dictSet_self] at hv
      injection hv with hv'
      subst hv'
      simpa [entryPos] using not_le.mp hle

/-- Claim C1 (amended), witness: removing 2 from `{"x": 5}` leaves the
strictly positive entry `{"x": 3}`. -/
theorem c1_witness : entryPos ("x", PyVal.num 3) = true :=
  c1_remove_enforces_positive [("x", PyVal.num 5)] "x" 2 (by decide)
    (fun v hv => by
      simp [dictGet] at hv
      subst hv
      rfl)
    (PyVal.num 3)
    (by norm_num [remove_item, dictGet, pySubQ, PyVal.toNum, dictSet, dictDel])

/-- Claim C2: `save_data(path)` followed by `load_data(path)` (against the
filesystem produced by the save, with the load starting from any mapping)
restores exactly the mapping that existed before the save, for any mapping
with string keys (unique, as in a dict) and numeric values. -/
theorem c2_save_load_roundtrip (fs : FS) (path : String) (s s2 : Inventory)
    (hnd : (keysOf s).Nodup)
    (_hnum : ∀ p ∈ s, ((Prod.snd p).toNum).isSome = true) :
    load_data (save_data fs s path true) s2 path = s := by
  have hfile : save_data fs s path true path = some (.json (.obj s)) := by
    simp [save_data]
  unfold load_data
  rw [hfile]
  exact installObj_eq_self s hnd

/-- Claim C2, witness: a two-entry mapping survives a save/load round trip
even when the mapping at load time is different. -/
theorem c2_witness :
    load_data
        (save_data fsEmpty [("apple", PyVal.num 3), ("pear", PyVal.num 5)]
          "inventory.json" true)
        [("x", PyVal.null)] "inventory.json" =
      [("apple", PyVal.num 3), ("pear", PyVal.num 5)] :=
  c2_save_load_roundtrip fsEmpty "inventory.json"
    [("apple", PyVal.num 3), ("pear", PyVal.num 5)] [("x", PyVal.null)]
    (by decide) (by decide)

/-- Claim C3: when `remove_item(item, qty)` drives the stored quantity to a
value `<= 0`, the entry is deleted: `get_qty(item)` then returns `0` and
`item` no longer appears among the mapping's keys. -/
theorem c3_remove_to_nonpositive_deletes (s : Inventory) (item : String)
    (a q : ℚ) (hnd : (keysOf s).Nodup)
    (hmem : dictGet s item = some (.num a)) (hle : a - q ≤ 0) :
    get_qty (remove_item s item (.num q)) item = .num 0 ∧
    item ∉ keysOf (remove_item s item (.num q)) := by
  have hsub : pySubQ (.num a) (.num q) = some (a - q) := rfl
  have hrm : remove_item s item (.num q) =
      dictDel (dictSet s item (.num (a - q))) item := by
    rw [remove_item_present s item (.num q) (.num a) hmem, hsub]
    simp [hle]
  have hnone : dictGet (dictDel (dictSet s item (.num (a - q))) item) item = none :=
    dictGet_dictDel_self _ item (nodup_keysOf_dictSet s item _ hnd)
  constructor
  · rw [hrm]
    unfold get_qty
    rw [hnone]
    rfl
  · rw [hrm]
    exact (dictGet_eq_none_iff _ item).mp hnone

/-- Claim C3, witness: removing 20 apples from `{"apple": 8}` deletes the
entry (the spec's own scenario). -/
theorem c3_witness :
    get_qty (remove_item [("apple", PyVal.num 8)] "apple" (.num 20)) "apple" =
      PyVal.num 0 ∧
    "apple" ∉ keysOf (remove_item [("apple", PyVal.num 8)] "apple" (.num 20)) :=
  c3_remove_to_nonpositive_deletes [("apple", PyVal.num 8)] "apple" 8 20
    (by decide) rfl (by norm_num)

/-- Claim C4: `load_data` leaves the mapping untouched on every failure
path — missing file, invalid JSON, or a JSON value that is not an object —
and replaces it wholesale (clear + install) exactly when the file parses as
a JSON object. -/
theorem c4_load_failure_unchanged (fs : FS) (path : String) (s : Inventory) :
    ((fs path = none ∨ fs path = some .invalid ∨
        (∃ v, fs path = some (.json v) ∧ ∀ kvs, v ≠ .obj kvs)) →
      load_data fs s path = s) ∧
    (∀ kvs, fs path = some (.json (.obj kvs)) →
      load_data fs s path = installObj kvs) := by
  constructor
  · intro h
    unfold load_data
    rcases h with h | h | ⟨v, h, hv⟩
    · rw [h]
    · rw [h]
    · rw [h]
      cases v with
      | obj kvs => exact absurd rfl (hv kvs)
      | num q => rfl
      | bool b => rfl
      | str s0 => rfl
      | null => rfl
      | arr xs => rfl
  · intro kvs h
    unfold load_data
    rw [h]

/-- Claim C4, witness: loading from a filesystem with no file at the path
leaves the mapping exactly as it was. -/
theorem c4_witness :
    load_data fsEmpty [("a", PyVal.num 1)] "inventory.json" =
      [("a", PyVal.num 1)] :=
  (c4_load_failure_unchanged fsEmpty "inventory.json" [("a", PyVal.num 1)]).1
    (Or.inl rfl)

/-- Claim C5: `add_item(item, qty)` sets the entry for `item` to its
previous value (`0` if absent) plus `qty` — in particular a sufficiently
negative `qty` makes a negative total persist in the mapping — and after a
sequence of adds to the same item, `get_qty(item)` is the running total of
all quantities added. -/
theorem c5_add_accumulates (s : Inventory) (item : String) (a : ℚ)
    (h : get_qty s item = .num a) :
    (∀ q : ℚ, add_item s (.str item) (.num q) =
        .ok (dictSet s item (.num (a + q)))) ∧
    (∀ qs : List ℚ, (addAll s item qs).map (fun s' => get_qty s' item) =
        .ok (.num (a + qs.sum))) := by
  refine ⟨add_item_num s item a h, ?_⟩
  intro qs
  induction qs generalizing s a with
  | nil => simp [addAll, Except.map, h]
  | cons q rest ih =>
    have hstep := add_item_num s item a h q
    have hget : get_qty (dictSet s item (.num (a + q))) item = .num (a + q) := by
      unfold get_qty
      rw [dictGet_dictSet_self]
      rfl
    simp only [addAll, hstep]
    rw [ih _ _ hget]
    simp [List.sum_cons, add_assoc]

/-- Claim C5, witness: from the empty mapping, `add("apple", 10)` stores
`0 + 10`, and the spec's scenario `add("apple", 10); add("apple", -2)`
leaves the cumulative total `0 + (10 + (-2)) = 8`. -/
theorem c5_witness :
    add_item [] (PyVal.str "apple") (PyVal.num 10) =
      .ok (dictSet [] "apple" (PyVal.num (0 + 10))) ∧
    (addAll [] "apple" [10, -2]).map (fun s' => get_qty s' "apple") =
      .ok (.num (0 + ([10, -2] : List ℚ).sum)) :=
  ⟨(c5_add_accumulates [] "apple" 0 rfl).1 10,
   (c5_add_accumulates [] "apple" 0 rfl).2 [10, -2]⟩

/-- Claim C6: on any mapping with numeric values, `check_low_items`
returns exactly the items whose quantity is strictly below the threshold,
in the mapping's insertion order (the filtered key list), without touching
the mapping (it is a pure query of the state); with the default threshold
`5`, the mapping `{"apple": 3, "banana": 10, "pear": 5}` yields exactly
`["apple"]`. -/
theorem c6_check_low_items_spec (s : Inventory) (t : ℚ)
    (hnum : ∀ p ∈ s, ((Prod.snd p).toNum).isSome = true) :
    check_low_items s t = .ok ((s.filter (isLow t)).map Prod.fst) ∧
    check_low_items_default
        [("apple", PyVal.num 3), ("banana", PyVal.num 10), ("pear", PyVal.num 5)] =
      .ok ["apple"] := by
  refine ⟨check_low_items_eq t s hnum, ?_⟩
  rfl

/-- Claim C6, witness: the general characterisation instantiated on the
spec's example mapping. -/
theorem c6_witness :
    check_low_items
        [("apple", PyVal.num 3), ("banana", PyVal.num 10), ("pear", PyVal.num 5)] 5 =
      .ok ((([("apple", PyVal.num 3), ("banana", PyVal.num 10),
        ("pear", PyVal.num 5)] : Inventory).filter (isLow 5)).map Prod.fst) ∧
    check_low_items_default
        [("apple", PyVal.num 3), ("banana", PyVal.num 10), ("pear", PyVal.num 5)] =
      .ok ["apple"] :=
  c6_check_low_items_spec
    [("apple", PyVal.num 3), ("banana", PyVal.num 10), ("pear", PyVal.num 5)] 5
    (by decide)

/-- Claim C7: `add_item` with a non-string `item` and a non-numeric `qty`
is a no-op: the mapping is unchanged and nothing is raised to the caller
(the type check rejects the call before any mutation). -/
theorem c7_add_invalid_types_noop (s : Inventory) (item qty : PyVal)
    (hitem : item.isStr = false) (_hqty : qty.isNumeric = false) :
    add_item s item qty = .ok s := by
  cases item with
  | str n => simp [PyVal.isStr] at hitem
  | num q => rfl
  | bool b => rfl
  | null => rfl
  | arr xs => rfl
  | obj kvs => rfl

/-- Claim C7, witness: the spec's own invalid call `add(123, "ten")` leaves
the empty mapping unchanged and returns normally. -/
theorem c7_witness :
    add_item [] (PyVal.num 123) (PyVal.str "ten") = .ok [] :=
  c7_add_invalid_types_noop [] (PyVal.num 123) (PyVal.str "ten") rfl rfl

/-- Claim C8: `remove_item` on an item that is absent from the mapping is a
no-op that leaves the mapping unchanged and does not raise (the absence
check returns before any mutation). -/
theorem c8_remove_absent_noop (s : Inventory) (item : String) (qty : PyVal)
    (h : dictGet s item = none) : remove_item s item qty = s := by
  unfold remove_item
  rw [h]

/-- Claim C8, witness: removing the absent `"orange"` leaves
`{"apple": 3}` unchanged. -/
theorem c8_witness :
    remove_item [("apple", PyVal.num 3)] "orange" (PyVal.num 1) =
      [("apple", PyVal.num 3)] :=
  c8_remove_absent_noop [("apple", PyVal.num 3)] "orange" (PyVal.num 1) rfl

/-- Claim C9 (implicit): when `remove_item` is called on a present item but
the subtraction raises `TypeError` (e.g. a non-numeric `qty`), the mapping
is left completely unchanged — the failing subtraction happens before any
assignment, so no partial state is possible. -/
theorem c9_remove_arith_failure_unchanged (s : Inventory) (item : String)
    (qty v : PyVal) (hmem : dictGet s item = some v)
    (hfail : pySubQ v qty = none) : remove_item s item qty = s := by
  rw [remove_item_present s item qty v hmem, hfail]

/-- Claim C9, witness: `remove("apple", "two")` on `{"apple": 1}` fails in
the subtraction and leaves the mapping exactly as it was. -/
theorem c9_witness :
    remove_item [("apple", PyVal.num 1)] "apple" (PyVal.str "two") =
      [("apple", PyVal.num 1)] :=
  c9_remove_arith_failure_unchanged [("apple", PyVal.num 1)] "apple"
    (PyVal.str "two") (PyVal.num 1) rfl rfl

/-- Claim C10 (implicit): a successful load of any JSON object installs the
object's key/value pairs verbatim, with no validation — zero, negative and
non-numeric values and empty-string keys included; the installed values are
then returned by `get_qty`, and `check_low_items` iterates exactly those
entries (on numeric values it returns the filtered key list in their
installed order). -/
theorem c10_load_installs_verbatim (fs : FS) (path : String) (s : Inventory)
    (kvs : List (String × PyVal))
    (hfile : fs path = some (.json (.obj kvs)))
    (hnd : ((kvs : Inventory).map Prod.fst).Nodup) :
    load_data fs s path = kvs ∧
    (∀ item v, (item, v) ∈ kvs → get_qty (load_data fs s path) item = v) ∧
    (∀ t : ℚ, (∀ p ∈ kvs, ((Prod.snd p).toNum).isSome = true) →
      check_low_items (load_data fs s path) t =
        .ok ((kvs.filter (isLow t)).map Prod.fst)) := by
  have hload : load_data fs s path = kvs := by
    unfold load_data
    rw [hfile]
    exact installObj_eq_self kvs hnd
  refine ⟨hload, ?_, ?_⟩
  · intro item v hmem
    rw [hload]
    unfold get_qty
    rw [dictGet_of_mem_nodup kvs item v hnd hmem]
    rfl
  · intro t hnum
    rw [hload]
    exact check_low_items_eq t kvs hnum

/-- Claim C10, witness: loading an object with an empty-string key, a zero
value, a negative value and a string value replaces the mapping verbatim,
and `get_qty` returns the unvalidated values. -/
theorem c10_witness :
    load_data fsLoadDemo [("old", PyVal.num 9)] "inventory.json" =
      [("", PyVal.num 0), ("neg", PyVal.num (-3)), ("s", PyVal.str "x")] ∧
    get_qty (load_data fsLoadDemo [("old", PyVal.num 9)] "inventory.json") "neg" =
      PyVal.num (-3) ∧
    get_qty (load_data fsLoadDemo [("old", PyVal.num 9)] "inventory.json") "s" =
      PyVal.str "x" := by
  obtain ⟨h1, h2, -⟩ := c10_load_installs_verbatim fsLoadDemo "inventory.json"
    [("old", PyVal.num 9)]
    [("", PyVal.num 0), ("neg", PyVal.num (-3)), ("s", PyVal.str "x")]
    rfl (by decide)
  exact ⟨h1, h2 "neg" _ (List.mem_cons_of_mem _ (List.mem_cons_self _ _)),
    h2 "s" _ (List.mem_cons_of_mem _ (List.mem_cons_of_mem _ (List.mem_cons_self _ _)))⟩

end InventorySystem
